import Mathlib

/-!
# Mailhop email worker — verification of the alias resolution & routing core

Shallow embedding of `workers/email/src/index.js` (the Cloudflare Email
Routing worker).  JavaScript strings are modelled as `List Char`; the D1
database, the transport's `forward` capability and the log sink are modelled
as oracles inside `Env` / `Message` returning `Except` values (an `Except.error`
models a thrown/rejected promise).  The `email` handler is translated
branch-for-branch from the source; its result records the terminal outcome
(`forward` vs `setReject`), the log rows attempted via `persistLog`, the alias
lookups issued against D1, and the `message.forward` attempts, in order.
-/

namespace Mailhop

/-- JavaScript strings, modelled as lists of UTF-16-ish characters. -/
abbrev JSString := List Char

/-- Coerce a Lean string literal into the model's string type. -/
def str (s : String) : JSString := s.data

/-- Whitespace as trimmed by `String.prototype.trim` (the common code points:
space, tab, LF, CR, VT, FF, NBSP, BOM). -/
def isWs (c : Char) : Bool :=
  decide (c.toNat = 32 ∨ c.toNat = 9 ∨ c.toNat = 10 ∨ c.toNat = 13 ∨
    c.toNat = 11 ∨ c.toNat = 12 ∨ c.toNat = 160 ∨ c.toNat = 65279)

/-- Leading-whitespace removal, as in `trim`. -/
def jsTrimLeft (s : JSString) : JSString := s.dropWhile isWs

/-- Trailing-whitespace removal, as in `trim`. -/
def jsTrimRight (s : JSString) : JSString := (s.reverse.dropWhile isWs).reverse

/-- Model of `String.prototype.trim`: drop surrounding whitespace. -/
def jsTrim (s : JSString) : JSString := jsTrimRight (jsTrimLeft s)

/-- Model of `String.prototype.toLowerCase`, per character (ASCII case folding). -/
def jsToLower (c : Char) : Char := Char.toLower c

/-- The source's `norm(s)`: `(s || "").trim().toLowerCase()`. -/
def norm (s : JSString) : JSString := (jsTrim s).map jsToLower

/-- Model of `String.prototype.indexOf(ch)`: index of the first occurrence, `-1` if absent. -/
def jsIndexOf (c : Char) (s : JSString) : Int :=
  match s.findIdx? (fun x => x = c) with
  | some i => Int.ofNat i
  | none => -1

/-- Model of `String.prototype.lastIndexOf(ch)`: index of the last occurrence, `-1` if absent. -/
def jsLastIndexOf (c : Char) (s : JSString) : Int :=
  match s.reverse.findIdx? (fun x => x = c) with
  | some i => Int.ofNat (s.length - 1 - i)
  | none => -1

/-- Result of `splitAddress`: `{ local, domain, full }` (`local` is a Lean
keyword, hence `localPart`). -/
structure Address where
  localPart : JSString
  domain : JSString
  full : JSString
  deriving DecidableEq

/-- The source's `splitAddress(raw)`: normalize, split on the last `@`;
`at < 1` (no `@`, or `@` first) yields empty local/domain with `full` kept. -/
def splitAddress (raw : JSString) : Address :=
  let full := norm raw
  let atIdx := jsLastIndexOf '@' full
  if atIdx < 1 then
    { localPart := [], domain := [], full := full }
  else
    { localPart := full.take atIdx.toNat,
      domain := full.drop (atIdx.toNat + 1),
      full := full }

/-- One row of the `aliases` table (`allow_plus` is an SQLite integer). -/
structure AliasRow where
  address : JSString
  forward_to : JSString
  allow_plus : Int
  deriving DecidableEq

/-- One row handed to `persistLog` (the `entry` objects built in the handler;
`msgMeta` fields first, then the per-branch fields, `none` when absent). -/
structure LogEntry where
  msgId : JSString
  fromAddr : JSString
  toAddr : JSString
  size : Nat
  domain : JSString
  route : JSString
  base : Option JSString
  dest : Option JSString
  result : JSString
  error : Option JSString
  deriving DecidableEq

/-- Environment bindings: `env.DOMAIN` (absent or a string) and the D1
database, split into its two uses — `SELECT ... FROM aliases` (`dbFirst`) and
`INSERT INTO email_logs` (`dbLogInsert`).  An `Except.error` models a thrown
exception / rejected promise. -/
structure Env where
  DOMAIN : Option JSString
  dbFirst : JSString → Except JSString (Option AliasRow)
  dbLogInsert : LogEntry → Except JSString Unit

/-- The inbound message capability set; `forward` is the transport oracle
(`Except.error` = the `await message.forward(...)` throws).  `uuid` stands for
the `crypto.randomUUID()` fallback when the `Message-Id` header is missing. -/
structure Message where
  fromAddr : JSString
  toAddr : JSString
  rawSize : Nat
  headerMessageId : Option JSString
  uuid : JSString
  forward : JSString → Except JSString Unit

/-- The source's `getDomain(env)`: `env.DOMAIN` normalized, falling back to
`"example.com"` when unset or falsy/blank. -/
def getDomain (env : Env) : JSString :=
  let configured :=
    match env.DOMAIN with
    | some d => if d = [] then [] else norm d
    | none => []
  if configured = [] then str "example.com" else configured

/-- The source's `isOurDomain(addr, env)`: the address's domain equals the worker domain. -/
def isOurDomain (addr : JSString) (env : Env) : Bool :=
  (splitAddress addr).domain = getDomain env

/-- The source's `wouldLoop(forwardTo, env)`: never forward back into our own domain. -/
def wouldLoop (forwardTo : JSString) (env : Env) : Bool :=
  isOurDomain forwardTo env

/-- The source's `persistLog(env, entry)`: the D1 insert wrapped in `try { ... } catch {}`;
every failure of the write is swallowed, so the call always resolves. -/
def persistLog (env : Env) (entry : LogEntry) : Except JSString Unit :=
  match env.dbLogInsert entry with
  | .ok _ => .ok ()
  | .error _ => .ok ()

/-- Terminal outcome of the handler: `message.forward` succeeded, or
`message.setReject(reason)` was called. -/
inductive Outcome where
  | forwarded (dest : JSString)
  | rejected (reason : JSString)
  deriving DecidableEq

/-- Observable trace of one `email(message, env)` run: the terminal outcome,
the `persistLog` attempts, the alias lookups issued, and the
`message.forward` attempts, each in program order. -/
structure RunResult where
  outcome : Outcome
  logs : List LogEntry
  lookups : List JSString
  forwards : List JSString
  deriving DecidableEq

/-- Reject reason `"550 Invalid recipient for this domain"`. -/
def rejectInvalidDomain : JSString := str "550 Invalid recipient for this domain"

/-- Reject reason `"550 Routing loop detected"`. -/
def rejectRoutingLoop : JSString := str "550 Routing loop detected"

/-- Reject reason `"550 Destination not verified"`. -/
def rejectNotVerified : JSString := str "550 Destination not verified"

/-- Reject reason `` `550 No such user at ${domain || "this domain"}` ``. -/
def rejectNoSuchUser (domain : JSString) : JSString :=
  str "550 No such user at " ++ (if domain = [] then str "this domain" else domain)

/-- Reject reason `"550 Internal error"`. -/
def rejectInternalError : JSString := str "550 Internal error"

/-- The `msgMeta` object built at the top of the handler. -/
structure MsgMeta where
  msgId : JSString
  fromAddr : JSString
  toAddr : JSString
  size : Nat
  domain : JSString
  deriving DecidableEq

/-- Spread `msgMeta` into a log entry with the given per-branch fields. -/
def mkEntry (m : MsgMeta) (route : JSString) (base dest : Option JSString)
    (result : JSString) (error : Option JSString) : LogEntry :=
  { msgId := m.msgId, fromAddr := m.fromAddr, toAddr := m.toAddr,
    size := m.size, domain := m.domain, route := route, base := base,
    dest := dest, result := result, error := error }

/-- Model of `await persistLog(env, entry)` followed by the branch's terminal result.
Were the awaited promise to reject, control would reach the handler's outer
`catch`, which appends an `"exception"` row and rejects with 550 Internal
error; `persistLog` swallows every failure, so that arm is dead code kept for
fidelity to the source's control flow. -/
def finishLog (env : Env) (meta : MsgMeta) (entry : LogEntry)
    (res : RunResult) : RunResult :=
  match persistLog env entry with
  | .ok _ => res
  | .error e =>
      { outcome := .rejected rejectInternalError,
        logs := res.logs ++ [mkEntry meta (str "exception") none none (str "error") (some e)],
        lookups := res.lookups,
        forwards := res.forwards }

/-- Step 3 of the handler: no alias matched at all — log `route="none"` and
reject with `550 No such user at ...`. -/
def noMatchResult (env : Env) (meta : MsgMeta) (domain : JSString)
    (lookups : List JSString) : RunResult :=
  let entry := mkEntry meta (str "none") none none (str "rejected")
    (some (str "no matching alias or plus-base alias found"))
  finishLog env meta entry
    { outcome := .rejected (rejectNoSuchUser domain),
      logs := [entry], lookups := lookups, forwards := [] }

/-- Model of `message.headers.get("Message-Id") || crypto.randomUUID()`: the header
when present and non-empty, else the generated id. -/
def msgIdOf (message : Message) : JSString :=
  match message.headerMessageId with
  | some h => if h = [] then message.uuid else h
  | none => message.uuid

/-- The `email(message, env)` handler, translated branch-for-branch from the
source: domain sanity check, exact alias lookup, plus-addressing fallback
(`indexOf("+")` — the first `+`), no-match rejection, and the outer
`try`/`catch` (a throwing D1 lookup lands in the `"exception"` branch). -/
def email (message : Message) (env : Env) : RunResult :=
  let rcpt := splitAddress message.toAddr
  let domain := getDomain env
  let msgId := msgIdOf message
  let meta : MsgMeta :=
    { msgId := msgId, fromAddr := message.fromAddr, toAddr := message.toAddr,
      size := message.rawSize, domain := domain }
  if rcpt.localPart = [] ∨ rcpt.domain ≠ domain then
    let entry := mkEntry meta (str "invalid-domain") none none (str "rejected")
      (some (str "recipient domain " ++
        (if rcpt.domain = [] then str "<none>" else rcpt.domain) ++
        str " does not match worker domain " ++ domain))
    finishLog env meta entry
      { outcome := .rejected rejectInvalidDomain,
        logs := [entry], lookups := [], forwards := [] }
  else
    match env.dbFirst rcpt.full with
    | .error e =>
        let entry := mkEntry meta (str "exception") none none (str "error") (some e)
        finishLog env meta entry
          { outcome := .rejected rejectInternalError,
            logs := [entry], lookups := [rcpt.full], forwards := [] }
    | .ok (some exact) =>
        if wouldLoop exact.forward_to env then
          let entry := mkEntry meta (str "exact") none (some exact.forward_to)
            (str "rejected")
            (some (str "routing loop detected (forward_to is in our own domain)"))
          finishLog env meta entry
            { outcome := .rejected rejectRoutingLoop,
              logs := [entry], lookups := [rcpt.full], forwards := [] }
        else
          match message.forward exact.forward_to with
          | .ok _ =>
              let entry := mkEntry meta (str "exact") none (some exact.forward_to)
                (str "forwarded") none
              finishLog env meta entry
                { outcome := .forwarded exact.forward_to,
                  logs := [entry], lookups := [rcpt.full],
                  forwards := [exact.forward_to] }
          | .error err =>
              let entry := mkEntry meta (str "exact") none (some exact.forward_to)
                (str "error") (some err)
              finishLog env meta entry
                { outcome := .rejected rejectNotVerified,
                  logs := [entry], lookups := [rcpt.full],
                  forwards := [exact.forward_to] }
    | .ok none =>
        let plusIdx := jsIndexOf '+' rcpt.localPart
        if plusIdx > -1 then
          let base := rcpt.localPart.take plusIdx.toNat ++ '@' :: rcpt.domain
          match env.dbFirst base with
          | .error e =>
              let entry := mkEntry meta (str "exception") none none (str "error") (some e)
              finishLog env meta entry
                { outcome := .rejected rejectInternalError,
                  logs := [entry], lookups := [rcpt.full, base], forwards := [] }
          | .ok (some baseRow) =>
              if baseRow.allow_plus = 1 then
                if wouldLoop baseRow.forward_to env then
                  let entry := mkEntry meta (str "base+tag") (some base)
                    (some baseRow.forward_to) (str "rejected")
                    (some (str "routing loop detected (forward_to is in our own domain)"))
                  finishLog env meta entry
                    { outcome := .rejected rejectRoutingLoop,
                      logs := [entry], lookups := [rcpt.full, base], forwards := [] }
                else
                  match message.forward baseRow.forward_to with
                  | .ok _ =>
                      let entry := mkEntry meta (str "base+tag") (some base)
                        (some baseRow.forward_to) (str "forwarded") none
                      finishLog env meta entry
                        { outcome := .forwarded baseRow.forward_to,
                          logs := [entry], lookups := [rcpt.full, base],
                          forwards := [baseRow.forward_to] }
                  | .error err =>
                      let entry := mkEntry meta (str "base+tag") (some base)
                        (some baseRow.forward_to) (str "error") (some err)
                      finishLog env meta entry
                        { outcome := .rejected rejectNotVerified,
                          logs := [entry], lookups := [rcpt.full, base],
                          forwards := [baseRow.forward_to] }
              else
                noMatchResult env meta domain [rcpt.full, base]
          | .ok none =>
              noMatchResult env meta domain [rcpt.full, base]
        else
          noMatchResult env meta domain [rcpt.full]

/-! ## Concrete fixtures (aliases, stores, messages) used to instantiate the
theorems on closed inputs -/

/-- Alias `hello@example.com → you@inbox.example.net`, plus-addressing enabled. -/
def exRow : AliasRow := ⟨str "hello@example.com", str "you@inbox.example.net", 1⟩

/-- Same alias with `allow_plus = 0`. -/
def exRowNoPlus : AliasRow := ⟨str "hello@example.com", str "you@inbox.example.net", 0⟩

/-- Alias `a@example.com → b@example.com`: destination inside the worker's domain. -/
def loopRow : AliasRow := ⟨str "a@example.com", str "b@example.com", 1⟩

/-- An always-succeeding alias store backed by a list of rows. -/
def okStore (rows : List AliasRow) : JSString → Except JSString (Option AliasRow) :=
  fun a => .ok (rows.find? (fun r => r.address = a))

/-- Environment for `example.com` with the given alias rows and a succeeding
log sink. -/
def mkEnv (rows : List AliasRow) : Env :=
  ⟨some (str "example.com"), okStore rows, fun _ => .ok ()⟩

/-- Same environment but with a log sink whose every write fails. -/
def mkEnvFailLog (rows : List AliasRow) : Env :=
  ⟨some (str "example.com"), okStore rows, fun _ => .error (str "log db down")⟩

/-- Environment with `env.DOMAIN` unset. -/
def envNoDomain : Env := ⟨none, okStore [], fun _ => .ok ()⟩

/-- An inbound message to the given recipient whose delivery succeeds. -/
def mkMessage (toA : String) : Message :=
  ⟨str "sender@remote.net", str toA, 1000, some (str "mid-1"), str "uuid-1",
    fun _ => .ok ()⟩

/-- A sample log row for instantiating logger theorems. -/
def sampleEntry : LogEntry :=
  mkEntry ⟨str "mid-1", str "sender@remote.net", str "hello@example.com", 1000,
    str "example.com"⟩ (str "exact") none (some (str "you@inbox.example.net"))
    (str "forwarded") none

/-! ## Helper lemmas -/

theorem persistLog_ok (env : Env) (entry : LogEntry) :
    persistLog env entry = .ok () := by
  unfold persistLog
  cases env.dbLogInsert entry <;> rfl

theorem finishLog_eq (env : Env) (meta : MsgMeta) (entry : LogEntry)
    (res : RunResult) : finishLog env meta entry res = res := by
  unfold finishLog
  rw [persistLog_ok]

theorem toLower_toNat (c : Char) :
    (jsToLower c).toNat =
      if 65 ≤ c.toNat ∧ c.toNat ≤ 90 then c.toNat + 32 else c.toNat := by
  by_cases h : 65 ≤ c.toNat ∧ c.toNat ≤ 90
  · have hv : (c.toNat + 32).isValidChar := Or.inl (by omega)
    have key : (Char.ofNat (c.toNat + 32)).toNat = c.toNat + 32 := by
      simp [Char.ofNat, hv]
      rfl
    rw [if_pos h]
    show (Char.toLower c).toNat = c.toNat + 32
    simp only [Char.toLower]
    rw [if_pos h]
    exact key
  · rw [if_neg h]
    show (Char.toLower c).toNat = c.toNat
    simp only [Char.toLower]
    rw [if_neg h]

theorem toLower_idem (c : Char) : jsToLower (jsToLower c) = jsToLower c := by
  have h := toLower_toNat c
  by_cases hr : 65 ≤ c.toNat ∧ c.toNat ≤ 90
  · rw [if_pos hr] at h
    have hn : ¬(65 ≤ (jsToLower c).toNat ∧ (jsToLower c).toNat ≤ 90) := by omega
    show Char.toLower (jsToLower c) = jsToLower c
    simp only [Char.toLower]
    rw [if_neg hn]
  · rw [if_neg hr] at h
    have hc : jsToLower c = c := by
      show Char.toLower c = c
      simp only [Char.toLower]
      rw [if_neg hr]
    rw [hc]
    exact hc

theorem isWs_toLower (c : Char) : isWs (jsToLower c) = isWs c := by
  have h := toLower_toNat c
  unfold isWs
  rw [decide_eq_decide]
  by_cases hr : 65 ≤ c.toNat ∧ c.toNat ≤ 90
  · rw [if_pos hr] at h
    rw [h]
    omega
  · rw [if_neg hr] at h
    rw [h]

theorem isWs_comp_toLower : (isWs ∘ jsToLower) = isWs :=
  funext fun c => isWs_toLower c

theorem dropWhile_idem (p : Char → Bool) (l : List Char) :
    List.dropWhile p (List.dropWhile p l) = List.dropWhile p l := by
  induction l with
  | nil => rfl
  | cons a l ih =>
    cases hp : p a with
    | true => simpa [List.dropWhile_cons, hp] using ih
    | false => simp [List.dropWhile_cons, hp]

theorem dropWhile_head_false (p : Char → Bool) (l : List Char) :
    ∀ (a : Char) (r : List Char), List.dropWhile p l = a :: r → p a = false := by
  induction l with
  | nil => intro a r h; simp [List.dropWhile] at h
  | cons b l ih =>
    intro a r h
    rw [List.dropWhile_cons] at h
    by_cases hp : p b = true
    · rw [if_pos hp] at h
      exact ih a r h
    · rw [if_neg hp] at h
      injection h with h1 _
      subst h1
      simpa using hp

theorem trimLeft_map (l : List Char) :
    jsTrimLeft (l.map jsToLower) = (jsTrimLeft l).map jsToLower := by
  unfold jsTrimLeft
  rw [List.dropWhile_map, isWs_comp_toLower]

theorem trimRight_map (l : List Char) :
    jsTrimRight (l.map jsToLower) = (jsTrimRight l).map jsToLower := by
  unfold jsTrimRight
  rw [← List.map_reverse, List.dropWhile_map, isWs_comp_toLower, List.map_reverse]

theorem jsTrim_map (l : List Char) :
    jsTrim (l.map jsToLower) = (jsTrim l).map jsToLower := by
  unfold jsTrim
  rw [trimLeft_map, trimRight_map]

theorem trimLeft_trimRight_fixed (l : List Char) (h : jsTrimLeft l = l) :
    jsTrimLeft (jsTrimRight l) = jsTrimRight l := by
  cases l with
  | nil => rfl
  | cons a r =>
    have ha : isWs a = false := dropWhile_head_false isWs (a :: r) a r h
    unfold jsTrimRight
    rw [List.reverse_cons, List.dropWhile_append]
    by_cases he : (List.dropWhile isWs r.reverse).isEmpty = true
    · rw [if_pos he]
      simp [jsTrimLeft, List.dropWhile_cons, ha]
    · rw [if_neg he]
      rw [List.reverse_append]
      simp [jsTrimLeft, List.dropWhile_cons, ha]

theorem trimLeft_idem (l : List Char) :
    jsTrimLeft (jsTrimLeft l) = jsTrimLeft l := dropWhile_idem isWs l

theorem trimRight_idem (l : List Char) :
    jsTrimRight (jsTrimRight l) = jsTrimRight l := by
  unfold jsTrimRight
  rw [List.reverse_reverse, dropWhile_idem]

theorem jsTrim_idem (l : List Char) : jsTrim (jsTrim l) = jsTrim l := by
  unfold jsTrim
  rw [trimLeft_trimRight_fixed (jsTrimLeft l) (trimLeft_idem l), trimRight_idem]

theorem norm_idem (s : JSString) : norm (norm s) = norm s := by
  unfold norm
  rw [jsTrim_map, jsTrim_idem, List.map_map]
  rw [show jsToLower ∘ jsToLower = jsToLower from funext fun c => toLower_idem c]

theorem splitAddress_full (x : JSString) : (splitAddress x).full = norm x := by
  simp only [splitAddress]
  split <;> rfl

theorem jsIndexOf_pos (c : Char) (s : JSString) (i : Nat)
    (h : s.findIdx? (fun x => x = c) = some i) : jsIndexOf c s = Int.ofNat i := by
  unfold jsIndexOf
  rw [h]

/-! ## Claim theorems -/

/-- C6: for every recipient whose normalized domain differs from the worker
domain, the pipeline rejects with InvalidDomain and performs zero alias-store
lookups. -/
theorem invalidDomain_rejects_without_lookup (m : Message) (e : Env)
    (hdom : (splitAddress m.toAddr).domain ≠ getDomain e) :
    (email m e).outcome = .rejected rejectInvalidDomain ∧
    (email m e).lookups = [] := by
  simp only [email, finishLog_eq]
  rw [if_pos (Or.inr hdom)]
  exact ⟨rfl, rfl⟩

/-- C6 witness: `x@other.com` against worker domain `example.com`. -/
theorem invalidDomain_rejects_without_lookup_witness :
    (email (mkMessage "x@other.com") (mkEnv [exRow])).outcome =
      .rejected rejectInvalidDomain ∧
    (email (mkMessage "x@other.com") (mkEnv [exRow])).lookups = [] :=
  invalidDomain_rejects_without_lookup (mkMessage "x@other.com") (mkEnv [exRow])
    (by decide)

/-- C7: exactly one durable log write is attempted per processed message, on
every path of the pipeline. -/
theorem one_log_attempt_per_message (m : Message) (e : Env) :
    (email m e).logs.length = 1 := by
  simp only [email, noMatchResult, finishLog_eq]
  repeat' split
  all_goals rfl

/-- C8: a failing log write never surfaces (`persistLog` always resolves) and
the run of the pipeline is identical for any two environments that differ only
in the log sink. -/
theorem log_failure_never_alters_outcome (m : Message) (e1 e2 : Env)
    (hD : e1.DOMAIN = e2.DOMAIN) (hdb : e1.dbFirst = e2.dbFirst) :
    email m e1 = email m e2 ∧ ∀ entry, persistLog e1 entry = .ok () := by
  refine ⟨?_, fun entry => persistLog_ok e1 entry⟩
  obtain ⟨D1, db1, log1⟩ := e1
  obtain ⟨D2, db2, log2⟩ := e2
  simp only at hD hdb
  subst hD
  subst hdb
  simp only [email, noMatchResult, finishLog_eq, getDomain, wouldLoop,
    isOurDomain]

/-- C8 witness: a log sink whose every write fails yields the same run as a
succeeding one, and its `persistLog` resolves. -/
theorem log_failure_never_alters_outcome_witness :
    email (mkMessage "hello@example.com") (mkEnvFailLog [exRow]) =
      email (mkMessage "hello@example.com") (mkEnv [exRow]) ∧
    persistLog (mkEnvFailLog [exRow]) sampleEntry = .ok () := by
  have h := log_failure_never_alters_outcome (mkMessage "hello@example.com")
    (mkEnvFailLog [exRow]) (mkEnv [exRow]) rfl rfl
  exact ⟨h.1, h.2 sampleEntry⟩

/-- C9: `normalize` is idempotent (re-splitting the produced `full` is a
fixpoint, and `norm` itself is idempotent), and an input with no `@` or an
empty local part yields empty `local`/`domain` with `full` preserved as the
trimmed lowercased input. -/
theorem normalize_idempotent (x : JSString) :
    splitAddress (splitAddress x).full = splitAddress x ∧
    norm (norm x) = norm x ∧
    (jsLastIndexOf '@' (norm x) < 1 →
      (splitAddress x).localPart = [] ∧ (splitAddress x).domain = [] ∧
      (splitAddress x).full = norm x) := by
  refine ⟨?_, norm_idem x, ?_⟩
  · rw [splitAddress_full]
    simp only [splitAddress]
    rw [norm_idem]
  · intro h
    simp only [splitAddress]
    rw [if_pos h]
    exact ⟨rfl, rfl, rfl⟩

/-- C9 witness: a mixed-case address is a normalization fixpoint, and an
input without `@` splits into empty parts. -/
theorem normalize_idempotent_witness :
    splitAddress (splitAddress (str "  User@Example.COM ")).full =
      splitAddress (str "  User@Example.COM ") ∧
    ((splitAddress (str "no-at-sign")).localPart = [] ∧
      (splitAddress (str "no-at-sign")).domain = [] ∧
      (splitAddress (str "no-at-sign")).full = norm (str "no-at-sign")) :=
  ⟨(normalize_idempotent (str "  User@Example.COM ")).1,
    (normalize_idempotent (str "no-at-sign")).2.2 (by decide)⟩

/-- C10: when `env.DOMAIN` is absent or normalizes to the empty string, the
worker domain — used by the domain check and the loop guard alike — is the
literal `example.com`. -/
theorem missing_domain_defaults_example_com (e : Env)
    (h : e.DOMAIN = none ∨ ∃ d, e.DOMAIN = some d ∧ norm d = []) :
    getDomain e = str "example.com" ∧
    ∀ fwd, (wouldLoop fwd e = true ↔
      (splitAddress fwd).domain = str "example.com") := by
  have hg : getDomain e = str "example.com" := by
    rcases h with h | ⟨d, hd, hn⟩
    · simp [getDomain, h]
    · by_cases hde : d = []
      · simp [getDomain, hd, hde]
      · simp [getDomain, hd, hde, hn]
  refine ⟨hg, fun fwd => ?_⟩
  unfold wouldLoop isOurDomain
  rw [hg]
  exact decide_eq_true_iff

/-- C1: whenever resolution (exact, or base+tag with `allow_plus = 1`) yields
a row whose `forward_to` lies in the worker's own domain, the message is
rejected as a routing loop and `message.forward` is never invoked — uniformly
for both route kinds, before any delivery attempt. -/
theorem loop_guard_uniform (m : Message) (e : Env) (row : AliasRow)
    (hloc : (splitAddress m.toAddr).localPart ≠ [])
    (hdom : (splitAddress m.toAddr).domain = getDomain e)
    (hres : e.dbFirst (splitAddress m.toAddr).full = .ok (some row) ∨
      (e.dbFirst (splitAddress m.toAddr).full = .ok none ∧
        ∃ i, (splitAddress m.toAddr).localPart.findIdx? (fun x => x = '+') =
            some i ∧
          e.dbFirst ((splitAddress m.toAddr).localPart.take i ++ '@' ::
            (splitAddress m.toAddr).domain) = .ok (some row) ∧
          row.allow_plus = 1))
    (hloop : (splitAddress row.forward_to).domain = getDomain e) :
    (email m e).outcome = .rejected rejectRoutingLoop ∧
    (email m e).forwards = [] := by
  have hl : wouldLoop row.forward_to e = true := by
    simp [wouldLoop, isOurDomain, hloop]
  have hcond : ¬((splitAddress m.toAddr).localPart = [] ∨
      (splitAddress m.toAddr).domain ≠ getDomain e) :=
    not_or.mpr ⟨hloc, not_not_intro hdom⟩
  rcases hres with hx | ⟨hx, i, hidx, hbase, hplus⟩
  · simp [email, finishLog_eq, hx, hl, hcond]
  · have hidx' := jsIndexOf_pos '+' (splitAddress m.toAddr).localPart i hidx
    have hnn : (0 : Int) ≤ Int.ofNat i := Int.ofNat_nonneg i
    have hgt : (-1 : Int) < Int.ofNat i := by omega
    have hgtc : (-1 : Int) < (i : Int) := by omega
    simp [email, finishLog_eq, hx, hidx', hgt, hgtc, hbase, hplus, hl, hcond]

/-- C1 witness: alias `a@example.com → b@example.com` (exact kind) loops. -/
theorem loop_guard_uniform_witness :
    (email (mkMessage "a@example.com") (mkEnv [loopRow])).outcome =
      .rejected rejectRoutingLoop ∧
    (email (mkMessage "a@example.com") (mkEnv [loopRow])).forwards = [] :=
  loop_guard_uniform (mkMessage "a@example.com") (mkEnv [loopRow]) loopRow
    (by decide) (by decide) (Or.inl rfl) (by decide)

/-- C2 counterexample: for recipient `user+a+b@example.com` (no exact alias),
the claim predicts a lookup of the last-`+` base `user+a@example.com`, but the
code computes the base from the **first** `+` (`indexOf`) and looks up
`user@example.com`; the last-`+` base never reaches the store. -/
theorem plus_base_last_counterexample :
    (str "user+a+b").take (jsLastIndexOf '+' (str "user+a+b")).toNat =
      str "user+a" ∧
    (email (mkMessage "user+a+b@example.com") (mkEnv [])).lookups =
      [str "user+a+b@example.com", str "user@example.com"] ∧
    str "user+a@example.com" ∉
      (email (mkMessage "user+a+b@example.com") (mkEnv [])).lookups := by
  decide

/-- C2 amended: the plus-tag base looked up in the alias store is
`local[:i] + "@" + domain` where `i` is the index of the **first** `+` in the
local part. -/
theorem plus_base_uses_first_plus (m : Message) (e : Env) (i : Nat)
    (hloc : (splitAddress m.toAddr).localPart ≠ [])
    (hdom : (splitAddress m.toAddr).domain = getDomain e)
    (hexact : e.dbFirst (splitAddress m.toAddr).full = .ok none)
    (hidx : (splitAddress m.toAddr).localPart.findIdx? (fun x => x = '+') =
      some i) :
    (email m e).lookups = [(splitAddress m.toAddr).full,
      (splitAddress m.toAddr).localPart.take i ++ '@' ::
        (splitAddress m.toAddr).domain] := by
  have hidx' := jsIndexOf_pos '+' (splitAddress m.toAddr).localPart i hidx
  have hnn : (0 : Int) ≤ Int.ofNat i := Int.ofNat_nonneg i
  have hgt : (-1 : Int) < Int.ofNat i := by omega
  simp only [email, noMatchResult, finishLog_eq]
  rw [if_neg (not_or.mpr ⟨hloc, not_not_intro hdom⟩)]
  rw [hexact]
  simp only [hidx', Int.toNat_ofNat]
  rw [if_pos hgt]
  repeat' split
  all_goals rfl

/-- C2 witness (amended claim): `user+a+b@example.com` looks up the base cut
at the first `+` (index 4), i.e. `user@example.com`. -/
theorem plus_base_uses_first_plus_witness :
    (email (mkMessage "user+a+b@example.com") (mkEnv [])).lookups =
      [(splitAddress (str "user+a+b@example.com")).full,
        (splitAddress (str "user+a+b@example.com")).localPart.take 4 ++ '@' ::
          (splitAddress (str "user+a+b@example.com")).domain] :=
  plus_base_uses_first_plus (mkMessage "user+a+b@example.com") (mkEnv []) 4
    (by decide) (by decide) rfl (by decide)

/-- C4: with no exact match and a `+` in the local part, the message is routed
via the base alias iff the base exists with `allow_plus = 1` (then delivery of
`forward_to` is attempted, succeeding when no loop and the transport accepts);
a missing base, or `allow_plus ≠ 1`, falls through to the NoMatch
rejection with no delivery attempt. -/
theorem plus_tag_resolution (m : Message) (e : Env) (i : Nat) (base : JSString)
    (hloc : (splitAddress m.toAddr).localPart ≠ [])
    (hdom : (splitAddress m.toAddr).domain = getDomain e)
    (hexact : e.dbFirst (splitAddress m.toAddr).full = .ok none)
    (hidx : (splitAddress m.toAddr).localPart.findIdx? (fun x => x = '+') =
      some i)
    (hbase : base = (splitAddress m.toAddr).localPart.take i ++ '@' ::
      (splitAddress m.toAddr).domain) :
    (∀ row, e.dbFirst base = .ok (some row) → row.allow_plus = 1 →
      (splitAddress row.forward_to).domain ≠ getDomain e →
      m.forward row.forward_to = .ok () →
      (email m e).outcome = .forwarded row.forward_to ∧
      (email m e).forwards = [row.forward_to]) ∧
    (e.dbFirst base = .ok none →
      (email m e).outcome = .rejected (rejectNoSuchUser (getDomain e)) ∧
      (email m e).forwards = []) ∧
    (∀ row, e.dbFirst base = .ok (some row) → row.allow_plus ≠ 1 →
      (email m e).outcome = .rejected (rejectNoSuchUser (getDomain e)) ∧
      (email m e).forwards = []) := by
  subst hbase
  have hidx' := jsIndexOf_pos '+' (splitAddress m.toAddr).localPart i hidx
  have hnn : (0 : Int) ≤ Int.ofNat i := Int.ofNat_nonneg i
  have hgt : (-1 : Int) < Int.ofNat i := by omega
  have hgtc : (-1 : Int) < (i : Int) := by omega
  have hcond : ¬((splitAddress m.toAddr).localPart = [] ∨
      (splitAddress m.toAddr).domain ≠ getDomain e) :=
    not_or.mpr ⟨hloc, not_not_intro hdom⟩
  refine ⟨fun row hrow h1 hnl hfw => ?_, fun hnone => ?_, fun row hrow h1 => ?_⟩
  · have hlf : wouldLoop row.forward_to e = false := by
      simp [wouldLoop, isOurDomain, hnl]
    simp [email, finishLog_eq, hexact, hidx', hgt, hgtc, hrow, h1, hlf, hfw,
      hcond]
  · simp [email, noMatchResult, finishLog_eq, hexact, hidx', hgt, hgtc, hnone,
      hcond]
  · simp [email, noMatchResult, finishLog_eq, hexact, hidx', hgt, hgtc, hrow,
      h1, hcond]

/-- C4 witness: `hello+promo@example.com` with base alias
`hello@example.com → you@inbox.example.net`, `allow_plus = 1`, forwards. -/
theorem plus_tag_resolution_witness :
    (email (mkMessage "hello+promo@example.com") (mkEnv [exRow])).outcome =
      .forwarded (str "you@inbox.example.net") ∧
    (email (mkMessage "hello+promo@example.com") (mkEnv [exRow])).forwards =
      [str "you@inbox.example.net"] := by
  have h := plus_tag_resolution (mkMessage "hello+promo@example.com")
    (mkEnv [exRow]) 5 (str "hello@example.com") (by decide) (by decide) rfl
    (by decide) (by decide)
  exact h.1 exRow rfl rfl (by decide) rfl

/-- C5: when an exact alias row exists, it alone determines the routing
decision — the store is consulted exactly once (no plus-tag fallback lookup)
and the outcome is the exact row's loop-check/delivery result. -/
theorem exact_match_precedence (m : Message) (e : Env) (row : AliasRow)
    (hloc : (splitAddress m.toAddr).localPart ≠ [])
    (hdom : (splitAddress m.toAddr).domain = getDomain e)
    (hexact : e.dbFirst (splitAddress m.toAddr).full = .ok (some row)) :
    (email m e).lookups = [(splitAddress m.toAddr).full] ∧
    (email m e).outcome =
      (if (splitAddress row.forward_to).domain = getDomain e then
        Outcome.rejected rejectRoutingLoop
      else
        match m.forward row.forward_to with
        | .ok _ => Outcome.forwarded row.forward_to
        | .error _ => Outcome.rejected rejectNotVerified) := by
  have hcond : ¬((splitAddress m.toAddr).localPart = [] ∨
      (splitAddress m.toAddr).domain ≠ getDomain e) :=
    not_or.mpr ⟨hloc, not_not_intro hdom⟩
  by_cases hl : (splitAddress row.forward_to).domain = getDomain e
  · have hlt : wouldLoop row.forward_to e = true := by
      simp [wouldLoop, isOurDomain, hl]
    simp [email, finishLog_eq, hexact, hlt, hl, hcond]
  · have hlf : wouldLoop row.forward_to e = false := by
      simp [wouldLoop, isOurDomain, hl]
    cases hf : m.forward row.forward_to with
    | ok u =>
        cases u
        simp [email, finishLog_eq, hexact, hlf, hl, hf, hcond]
    | error err =>
        simp [email, finishLog_eq, hexact, hlf, hl, hf, hcond]

/-- C5 witness: exact alias `hello@example.com` wins (single lookup, exact
routing decision). -/
theorem exact_match_precedence_witness :
    (email (mkMessage "hello@example.com") (mkEnv [exRow])).lookups =
      [(splitAddress (str "hello@example.com")).full] ∧
    (email (mkMessage "hello@example.com") (mkEnv [exRow])).outcome =
      (if (splitAddress exRow.forward_to).domain = getDomain (mkEnv [exRow])
        then Outcome.rejected rejectRoutingLoop
      else
        match (mkMessage "hello@example.com").forward exRow.forward_to with
        | .ok _ => Outcome.forwarded exRow.forward_to
        | .error _ => Outcome.rejected rejectNotVerified) :=
  exact_match_precedence (mkMessage "hello@example.com") (mkEnv [exRow]) exRow
    (by decide) (by decide) rfl

/-- C3: every processed message terminates either with a successful
`message.forward` of the resolved destination, or with a 550 reject carrying
one of the five fixed reasons; no branch of the pipeline escapes without one
of these outcomes. -/
theorem every_message_terminates_550 (m : Message) (e : Env) :
    (∃ d, (email m e).outcome = .forwarded d ∧ m.forward d = .ok ()) ∨
    (∃ r, (email m e).outcome = .rejected r ∧
      (r = rejectInvalidDomain ∨ r = rejectRoutingLoop ∨
        r = rejectNoSuchUser (getDomain e) ∨ r = rejectNotVerified ∨
        r = rejectInternalError)) := by
  simp only [email, noMatchResult, finishLog_eq]
  repeat' split
  all_goals first
    | exact Or.inr ⟨_, rfl, by simp⟩
    | (rename_i u heq
       cases u
       exact Or.inl ⟨_, rfl, heq⟩)

/-- C10 witness: an environment with `DOMAIN` unset routes for
`example.com`. -/
theorem missing_domain_defaults_example_com_witness :
    getDomain envNoDomain = str "example.com" ∧
    (wouldLoop (str "z@example.com") envNoDomain = true ↔
      (splitAddress (str "z@example.com")).domain = str "example.com") :=
  ⟨(missing_domain_defaults_example_com envNoDomain (Or.inl rfl)).1,
    (missing_domain_defaults_example_com envNoDomain (Or.inl rfl)).2
      (str "z@example.com")⟩

end Mailhop
